import Mathlib

set_option maxRecDepth 4000

/-- Byte strings: a Rust str or String is modelled as its list of bytes,
each a natural number below 256. All the protocol strings the claims
touch are ASCII, where one byte is one character. -/
abbrev Str := List Nat

/-- Bytes of an ASCII string literal. For ASCII characters the Unicode
code point equals the UTF-8 byte, so mapping each character to its code
point yields the byte encoding. -/
def strBytes (s : String) : Str := s.data.map Char.toNat

/-- The unified output record of lib.rs: Message with a sender, an
optional chat content and an optional donated amount. -/
structure Message where
  sender : Str
  content : Option Str
  donated : Option Nat
deriving DecidableEq

deriving instance DecidableEq for Except

/-- soop.rs HEADER_LEN. -/
def HEADER_LEN : Nat := 2 + 4 + 6 + 2

/-- Decimal digit bytes of a natural number, accumulator form. The fuel
argument only needs to exceed the number itself. -/
def natDigitsCore : Nat → Nat → Str → Str
  | 0, _, acc => acc
  | fuel + 1, n, acc =>
    if n < 10 then (0x30 + n) :: acc
    else natDigitsCore fuel (n / 10) ((0x30 + n % 10) :: acc)

/-- Decimal digit bytes of a natural number, as Rust Display prints it. -/
def natBytes (n : Nat) : Str := natDigitsCore (n + 1) n []

/-- Zero-padded decimal formatting of width w, as the Rust format
specifier 0w prints an unsigned integer: the decimal digits, padded with
leading zero characters up to width w; longer numbers keep every digit. -/
def fmtPad (w n : Nat) : Str :=
  List.replicate (w - (natBytes n).length) 0x30 ++ natBytes n

/-- soop.rs write_packet: the two control bytes 0x1B 0x09, the packet
type zero-padded to 4 decimal digits, the body length zero-padded to 6,
the constant 0 zero-padded to 2, then the body verbatim. -/
def write_packet (packet_type : Nat) (body : Str) : Str :=
  [0x1B, 0x09] ++ fmtPad 4 packet_type ++ fmtPad 6 body.length ++ fmtPad 2 0 ++ body

/-- Whether a byte is an ASCII decimal digit. -/
def isDigitB (b : Nat) : Bool := 0x30 ≤ b && b ≤ 0x39

/-- Value of a big-endian list of decimal digit bytes. -/
def digitsVal (s : Str) : Nat := s.foldl (fun a b => a * 10 + (b - 0x30)) 0

/-- Rust unsigned from_str, as used by str parse: an optional leading
plus sign, then one or more ASCII digits, failing on overflow of the
target type. Comparing the final value against the bound is equivalent
to the stepwise overflow check because the accumulated value only grows. -/
def parseUIntCore (bound : Nat) (s : Str) : Option Nat :=
  let digits :=
    match s with
    | [] => []
    | b :: rest => if b = 0x2B then rest else b :: rest
  if digits.isEmpty then none
  else if digits.all isDigitB then
    if digitsVal digits < bound then some (digitsVal digits) else none
  else none

def parseU32 (s : Str) : Option Nat := parseUIntCore (2 ^ 32) s

def parseU64 (s : Str) : Option Nat := parseUIntCore (2 ^ 64) s

/-- soop.rs parse_packet: inputs shorter than the header are rejected;
the four bytes at positions two to five are parsed as the packet type;
everything past the 14-byte header is the body. The declared length
field at positions six to eleven is never consulted. -/
def parse_packet (packet : Str) : Except Str (Nat × Str) :=
  if packet.length < HEADER_LEN then .error (strBytes "packet too short")
  else
    match parseU32 ((packet.drop 2).take 4) with
    | none => .error (strBytes "failed to parse packet type")
    | some t => .ok (t, packet.drop HEADER_LEN)

/-- Rust str split on a one-character pattern: the fields between
occurrences of the delimiter. It always yields at least one field. -/
def splitByte (d : Nat) : Str → List Str
  | [] => [[]]
  | b :: rest =>
    let r := splitByte d rest
    if b = d then [] :: r
    else
      match r with
      | [] => [[b]]
      | f :: fs => (b :: f) :: fs

/-- soop.rs handle_chatmesg. The Rust code splits the body on the 0x0C
delimiter and calls nth 1 and then nth 4 on the split iterator. nth
returns the element that many positions ahead and advances past it, so
the first call yields split index 1 and the second one yields split
index 1 + 1 + 4 = 6. -/
def handle_chatmesg (body : Str) : Except Str Message :=
  let fields := splitByte 0x0C body
  match fields[1]? with
  | none => .error (strBytes "invalid chatmesg packet")
  | some message =>
    match fields[6]? with
    | none => .error (strBytes "invalid chatmesg packet")
    | some name => .ok ⟨name, some message, none⟩

/-- soop.rs handle_sendballoon: on the split iterator, nth 2 yields
split index 2 (the user) and the following nth 1 yields split index
2 + 1 + 1 = 4 (the amount), which is parsed as a u64. -/
def handle_sendballoon (body : Str) : Except Str Message :=
  let fields := splitByte 0x0C body
  match fields[2]? with
  | none => .error (strBytes "invalid sendballoon packet")
  | some user =>
    match fields[4]? with
    | none => .error (strBytes "invalid sendballoon packet")
    | some amount =>
      match parseU64 amount with
      | none => .error (strBytes "failed to parse amount")
      | some v => .ok ⟨user, none, some v⟩

/-- soop.rs handle_setbjstat: stores false into the shared liveness flag
and reports the frame as skipped. Modelled with explicit state passing:
the boolean component is the new value of the flag. -/
def handle_setbjstat : Bool × Except Str Message :=
  (false, .error (strBytes "continue"))

/-- soop.rs handle_message on an inbound text frame, threading the
liveness flag explicitly. -/
def handle_message (text : Str) (is_alive : Bool) : Bool × Except Str Message :=
  match parse_packet text with
  | .error e => (is_alive, .error e)
  | .ok (packet_type, body) =>
    if packet_type = 0x05 then (is_alive, handle_chatmesg body)
    else if packet_type = 0x07 then handle_setbjstat
    else if packet_type = 0x12 then (is_alive, handle_sendballoon body)
    else (is_alive, .error (strBytes "continue"))

/-- One scheduling event of the Soop streaming phase: an inbound frame
carrying a text payload, an inbound transport error, or one iteration of
the 6-second keepalive loop tagged with whether its send succeeds. -/
inductive SoopEv where
  | frame (text : Str)
  | frameErr
  | tick (sendOk : Bool)

/-- Discrete-event model of the Soop streaming phase built in soop.rs
new. The decode loop filters frames through handle_message; the
keepalive task re-checks the liveness flag at each iteration and exits
when the flag is false or its send fails; take_until then ends the
stream, so no later event yields a Message. -/
def runSoop (is_alive : Bool) : List SoopEv → List Message
  | [] => []
  | SoopEv.tick sendOk :: rest =>
    if is_alive then
      if sendOk then runSoop is_alive rest else []
    else []
  | SoopEv.frameErr :: rest => runSoop is_alive rest
  | SoopEv.frame text :: rest =>
    match handle_message text is_alive with
    | (a, Except.ok m) => m :: runSoop a rest
    | (a, Except.error _) => runSoop a rest

/-- Bytes of an i64 as Rust Display prints it. -/
def intBytes (i : Int) : Str :=
  if i < 0 then 0x2D :: natBytes i.natAbs else natBytes i.natAbs

/-- chzzk.rs Response: the generic envelope of the bootstrap HTTP calls,
with a code, an optional message and a content payload. -/
structure ChzzkResponse (T : Type) where
  code : Int
  message : Option Str
  content : T

/-- chzzk.rs get, after the HTTP transport has delivered an envelope:
a code different from 200 becomes an error built from the format string
used by the source, carrying the code and, when present, the message;
only a 200 envelope releases its content. -/
def chzzkCheckCode {T : Type} (r : ChzzkResponse T) : Except Str T :=
  if r.code ≠ 200 then
    match r.message with
    | some m =>
      .error (strBytes "chzzk api error: " ++ intBytes r.code ++ strBytes " (" ++ m ++ strBytes ")")
    | none => .error (strBytes "chzzk api error: " ++ intBytes r.code)
  else .ok r.content

/-- One byte segment occurring contiguously inside another. -/
def containsSeg (small big : Str) : Prop := ∃ p q, big = p ++ small ++ q

/-- Lowercase hexadecimal digit byte, as serde_json prints u-escapes. -/
def hexDigitByte (n : Nat) : Nat := if n < 10 then 0x30 + n else 0x57 + n

/-- serde_json string escaping of one byte: quote and backslash receive
a backslash escape, the control bytes 8, 9, 10, 12 and 13 their short
escapes, the remaining control bytes a lowercase u-escape, and every
other byte is emitted verbatim. -/
def escapeByte (b : Nat) : Str :=
  if b = 0x22 then [0x5C, 0x22]
  else if b = 0x5C then [0x5C, 0x5C]
  else if b = 0x08 then [0x5C, 0x62]
  else if b = 0x09 then [0x5C, 0x74]
  else if b = 0x0A then [0x5C, 0x6E]
  else if b = 0x0C then [0x5C, 0x66]
  else if b = 0x0D then [0x5C, 0x72]
  else if b < 0x20 then [0x5C, 0x75, 0x30, 0x30, hexDigitByte (b / 16), hexDigitByte (b % 16)]
  else [b]

/-- serde_json serialization of a string value. -/
def jsonQuote (s : Str) : Str := 0x22 :: (s.flatMap escapeByte ++ [0x22])

/-- chzzk.rs Auth, the body of the authentication command. -/
structure Auth where
  access_token : Str
  auth : Str

/-- chzzk.rs Auth new: the given token plus the constant READ level. -/
def Auth.new (access_token : Str) : Auth := ⟨access_token, strBytes "READ"⟩

/-- serde_json serialization of an Auth body: fields in declaration
order under their serde renames accTkn and auth. -/
def Auth.serialize (a : Auth) : Str :=
  strBytes "\x7b\"accTkn\":" ++ jsonQuote a.access_token ++ strBytes ",\"auth\":" ++
    jsonQuote a.auth ++ strBytes "\x7d"

/-- chzzk.rs SendCommandBody command for Auth. -/
def Auth.command : Int := 100

/-- chzzk.rs SendCommandBody version for Auth. -/
def Auth.version : Int := 3

/-- chzzk.rs SendCommandBody send: the SendCommand envelope serialized
by serde_json, fields in declaration order under their serde renames.
The body field holds a RawValue built from the already-serialized body
text, and serde_json emits a RawValue verbatim, so that text is spliced
into the envelope unquoted. -/
def sendCommandText (channel_id : Str) (command version : Int) (rawBody : Str) : Str :=
  strBytes "\x7b\"svcid\":\"game\",\"cid\":" ++ jsonQuote channel_id ++ strBytes ",\"cmd\":" ++
    intBytes command ++ strBytes ",\"ver\":" ++ intBytes version ++ strBytes ",\"bdy\":" ++
    rawBody ++ strBytes "\x7d"

/-- The full outbound text of the Auth command: chzzk.rs new sends
Auth new over the socket through SendCommandBody send. -/
def authSendText (channel_id token : Str) : Str :=
  sendCommandText channel_id Auth.command Auth.version (Auth.new token).serialize

/-- JSON values. Numbers are restricted to optionally signed integer
literals, which covers every numeric field of the protocol. -/
inductive Json where
  | null
  | jbool (b : Bool)
  | jnum (n : Int)
  | jstr (s : Str)
  | jarr (elems : List Json)
  | jobj (fields : List (Str × Json))

/-- JSON insignificant whitespace bytes. -/
def isWsByte (b : Nat) : Bool := b = 0x20 || b = 0x09 || b = 0x0A || b = 0x0D

def skipWs : Str → Str
  | [] => []
  | b :: rest => if isWsByte b then skipWs rest else b :: rest

def parseHexDigit (b : Nat) : Option Nat :=
  if 0x30 ≤ b ∧ b ≤ 0x39 then some (b - 0x30)
  else if 0x61 ≤ b ∧ b ≤ 0x66 then some (b - 0x57)
  else if 0x41 ≤ b ∧ b ≤ 0x46 then some (b - 0x37)
  else none

/-- UTF-8 encoding of a code point below 0x10000, which is all a single
4-hex-digit u-escape can denote. -/
def utf8Encode (n : Nat) : Str :=
  if n < 0x80 then [n]
  else if n < 0x800 then [0xC0 + n / 64, 0x80 + n % 64]
  else [0xE0 + n / 4096, 0x80 + n / 64 % 64, 0x80 + n % 64]

/-- Body of a JSON string after its opening quote: the decoded bytes
and the input past the closing quote. Surrogate pair escapes are left
out; none of the protocol strings involved uses them. -/
def parseStrBody : Nat → Str → Option (Str × Str)
  | 0, _ => none
  | _, [] => none
  | fuel + 1, b :: rest =>
    if b = 0x22 then some ([], rest)
    else if b = 0x5C then
      match rest with
      | [] => none
      | e :: r2 =>
        let dec : Option (Str × Str) :=
          if e = 0x22 then some ([0x22], r2)
          else if e = 0x5C then some ([0x5C], r2)
          else if e = 0x2F then some ([0x2F], r2)
          else if e = 0x62 then some ([0x08], r2)
          else if e = 0x66 then some ([0x0C], r2)
          else if e = 0x6E then some ([0x0A], r2)
          else if e = 0x72 then some ([0x0D], r2)
          else if e = 0x74 then some ([0x09], r2)
          else if e = 0x75 then
            match r2 with
            | h1 :: h2 :: h3 :: h4 :: r3 =>
              match parseHexDigit h1, parseHexDigit h2, parseHexDigit h3, parseHexDigit h4 with
              | some d1, some d2, some d3, some d4 =>
                let cp := ((d1 * 16 + d2) * 16 + d3) * 16 + d4
                if 0xD800 ≤ cp ∧ cp ≤ 0xDFFF then none else some (utf8Encode cp, r3)
              | _, _, _, _ => none
            | _ => none
          else none
        match dec with
        | none => none
        | some (bs, r3) =>
          match parseStrBody fuel r3 with
          | none => none
          | some (s, r4) => some (bs ++ s, r4)
    else if b < 0x20 then none
    else
      match parseStrBody fuel rest with
      | none => none
      | some (s, r2) => some (b :: s, r2)

def takeDigits : Str → Str × Str
  | [] => ([], [])
  | b :: rest =>
    if isDigitB b then
      let (ds, r) := takeDigits rest
      (b :: ds, r)
    else ([], b :: rest)

/-- JSON number parse, restricted to optionally signed integers. -/
def parseNum (s : Str) : Option (Int × Str) :=
  match s with
  | 0x2D :: rest =>
    let (ds, r) := takeDigits rest
    if ds.isEmpty then none else some (-(digitsVal ds : Int), r)
  | _ =>
    let (ds, r) := takeDigits s
    if ds.isEmpty then none else some ((digitsVal ds : Int), r)

def expectBytes (lit : Str) (s : Str) : Option Str :=
  if s.take lit.length = lit then some (s.drop lit.length) else none

/-- Comma-separated JSON array elements up to the closing bracket,
given a parser for one value. -/
def parseElemsAux (pv : Str → Option (Json × Str)) : Nat → Str → Option (List Json × Str)
  | 0, _ => none
  | fuel + 1, s =>
    match pv s with
    | none => none
    | some (v, r) =>
      match skipWs r with
      | 0x2C :: r2 =>
        match parseElemsAux pv fuel (skipWs r2) with
        | none => none
        | some (vs, r3) => some (v :: vs, r3)
      | 0x5D :: r2 => some ([v], r2)
      | _ => none

/-- Comma-separated JSON object members up to the closing brace. -/
def parseMembersAux (pv : Str → Option (Json × Str)) : Nat → Str → Option (List (Str × Json) × Str)
  | 0, _ => none
  | fuel + 1, s =>
    match skipWs s with
    | 0x22 :: r =>
      match parseStrBody (r.length + 1) r with
      | none => none
      | some (key, r2) =>
        match skipWs r2 with
        | 0x3A :: r3 =>
          match pv (skipWs r3) with
          | none => none
          | some (v, r4) =>
            match skipWs r4 with
            | 0x2C :: r5 =>
              match parseMembersAux pv fuel r5 with
              | none => none
              | some (ms, r6) => some ((key, v) :: ms, r6)
            | 0x7D :: r5 => some ([(key, v)], r5)
            | _ => none
        | _ => none
    | _ => none

/-- One JSON value and the remaining input. The fuel bounds the nesting
depth; every nesting level consumes at least one byte, so a fuel above
the input length always suffices. -/
def parseValue : Nat → Str → Option (Json × Str)
  | 0, _ => none
  | fuel + 1, s =>
    match skipWs s with
    | [] => none
    | b :: rest =>
      if b = 0x22 then
        match parseStrBody (rest.length + 1) rest with
        | none => none
        | some (cs, r) => some (Json.jstr cs, r)
      else if b = 0x5B then
        match skipWs rest with
        | 0x5D :: r => some (Json.jarr [], r)
        | s2 =>
          match parseElemsAux (parseValue fuel) (s2.length + 1) s2 with
          | none => none
          | some (vs, r) => some (Json.jarr vs, r)
      else if b = 0x7B then
        match skipWs rest with
        | 0x7D :: r => some (Json.jobj [], r)
        | s2 =>
          match parseMembersAux (parseValue fuel) (s2.length + 1) s2 with
          | none => none
          | some (ms, r) => some (Json.jobj ms, r)
      else if b = 0x74 then
        match expectBytes (strBytes "rue") rest with
        | some r => some (Json.jbool true, r)
        | none => none
      else if b = 0x66 then
        match expectBytes (strBytes "alse") rest with
        | some r => some (Json.jbool false, r)
        | none => none
      else if b = 0x6E then
        match expectBytes (strBytes "ull") rest with
        | some r => some (Json.null, r)
        | none => none
      else
        match parseNum (b :: rest) with
        | none => none
        | some (n, r) => some (Json.jnum n, r)

/-- serde_json from_str on a complete document: exactly one value with
only whitespace around it. -/
def parseJsonTop (s : Str) : Option Json :=
  match parseValue (s.length + 1) s with
  | none => none
  | some (v, r) => if skipWs r = [] then some v else none

/-- Field lookup in a decoded JSON object. -/
def jobjGet (fields : List (Str × Json)) (key : Str) : Option Json :=
  match fields with
  | [] => none
  | (k, v) :: rest => if k = key then some v else jobjGet rest key

/-- chzzk.rs ChatMessage, one decoded chat event: the sender comes from
the profile field through deserialize_sender, the content from msg and
the donated amount from the extras field through deserialize_donated. -/
structure ChatMessage where
  sender : Str
  content : Str
  donated : Option Nat
deriving DecidableEq

/-- chzzk.rs deserialize_sender: the profile field must be a JSON
string, whose content is parsed again as JSON and must be an object
carrying a string field named nickname. -/
def deserialize_sender (profile : Str) : Except Str Str :=
  match parseJsonTop profile with
  | none => .error (strBytes "profile is not valid json")
  | some j =>
    match j with
    | Json.jobj fields =>
      match jobjGet fields (strBytes "nickname") with
      | some (Json.jstr n) => .ok n
      | _ => .error (strBytes "profile has no nickname")
    | _ => .error (strBytes "profile is not an object")

/-- chzzk.rs deserialize_donated: the extras field must be a JSON
string, whose content is parsed again as JSON and must be an object.
The derived Extras struct declares a field spelled pay_amount and has
no serde rename, so only a key spelled pay_amount is consulted; it is
optional (absent or null gives none) and must be a u64 when present.
Unknown keys, such as payAmount, are ignored by serde. -/
def deserialize_donated (extras : Str) : Except Str (Option Nat) :=
  match parseJsonTop extras with
  | none => .error (strBytes "extras is not valid json")
  | some j =>
    match j with
    | Json.jobj fields =>
      match jobjGet fields (strBytes "pay_amount") with
      | none => .ok none
      | some Json.null => .ok none
      | some (Json.jnum n) =>
        if 0 ≤ n ∧ n < 2 ^ 64 then .ok (some n.toNat)
        else .error (strBytes "pay_amount out of range")
      | some _ => .error (strBytes "pay_amount is not an integer")
    | _ => .error (strBytes "extras is not an object")

/-- serde decode of one chat event by the derived ChatMessage
deserializer: the event must be an object whose profile, msg and extras
members are JSON strings; profile and extras then pass through their
double-parsing field deserializers. Any failure fails the event. -/
def decodeChatMessage (j : Json) : Except Str ChatMessage :=
  match j with
  | Json.jobj fields =>
    match jobjGet fields (strBytes "profile") with
    | some (Json.jstr profile) =>
      match deserialize_sender profile with
      | .error e => .error e
      | .ok sender =>
        match jobjGet fields (strBytes "msg") with
        | some (Json.jstr content) =>
          match jobjGet fields (strBytes "extras") with
          | some (Json.jstr extras) =>
            match deserialize_donated extras with
            | .error e => .error e
            | .ok donated => .ok ⟨sender, content, donated⟩
          | _ => .error (strBytes "missing or invalid extras")
        | _ => .error (strBytes "missing or invalid msg")
    | _ => .error (strBytes "missing or invalid profile")
  | _ => .error (strBytes "chat event is not an object")

/-- serde decode of a Vec of chat events: every element must decode,
one failing element fails the whole list. -/
def decodeChatMessages : List Json → Except Str (List ChatMessage)
  | [] => .ok []
  | j :: rest =>
    match decodeChatMessage j with
    | .error e => .error e
    | .ok m =>
      match decodeChatMessages rest with
      | .error e => .error e
      | .ok ms => .ok (m :: ms)

/-- chzzk.rs RecvCommandBody recv for ChatCommand: the frame text is
parsed as JSON; the envelope must be an object with a bdy member, other
keys being ignored; the raw bdy value must be an array of chat events. -/
def recvChatCommand (text : Str) : Except Str (List ChatMessage) :=
  match parseJsonTop text with
  | none => .error (strBytes "frame is not valid json")
  | some j =>
    match j with
    | Json.jobj fields =>
      match jobjGet fields (strBytes "bdy") with
      | none => .error (strBytes "missing bdy")
      | some bdy =>
        match bdy with
        | Json.jarr elems => decodeChatMessages elems
        | _ => .error (strBytes "bdy is not an array")
    | _ => .error (strBytes "frame is not an object")

/-- chzzk.rs new, decode side of the stream: a transport error or a
frame that fails to decode yields no Messages and the stream keeps
going; a decoded frame flattens into one crate Message per event, the
msg text always wrapped in some. -/
def chzzkProcessFrame (frame : Except Unit Str) : List Message :=
  match frame with
  | .error _ => []
  | .ok text =>
    match recvChatCommand text with
    | .error _ => []
    | .ok msgs => msgs.map (fun m => ⟨m.sender, some m.content, m.donated⟩)

/-- The whole inbound side of the Chzzk stream over a list of frames. -/
def chzzkProcessFrames : List (Except Unit Str) → List Message
  | [] => []
  | f :: rest => chzzkProcessFrame f ++ chzzkProcessFrames rest

theorem natDigitsCore_append (n : Nat) : ∀ fuel acc, n < fuel →
    natDigitsCore fuel n acc = natBytes n ++ acc := by
  induction n using Nat.strong_induction_on with
  | _ n ih =>
    intro fuel acc h
    match fuel, h with
    | fuel + 1, h =>
      by_cases h10 : n < 10
      · simp [natDigitsCore, natBytes, h10]
      · have hdiv : n / 10 < n := Nat.div_lt_self (by omega) (by omega)
        have h1 : natDigitsCore (fuel + 1) n acc
            = natDigitsCore fuel (n / 10) ((0x30 + n % 10) :: acc) := by
          simp [natDigitsCore, h10]
        have h2 : natBytes n = natBytes (n / 10) ++ [0x30 + n % 10] := by
          have h3 : natBytes n = natDigitsCore n (n / 10) [0x30 + n % 10] := by
            simp [natBytes, natDigitsCore, h10]
          rw [h3, ih (n / 10) hdiv n [0x30 + n % 10] hdiv]
        rw [h1, ih (n / 10) hdiv fuel ((0x30 + n % 10) :: acc) (by omega), h2]
        simp

theorem natBytes_small (n : Nat) (h : n < 10) : natBytes n = [0x30 + n] := by
  simp [natBytes, natDigitsCore, h]

theorem natBytes_step (n : Nat) (h : ¬ n < 10) :
    natBytes n = natBytes (n / 10) ++ [0x30 + n % 10] := by
  have h1 : natBytes n = natDigitsCore n (n / 10) [0x30 + n % 10] := by
    simp [natBytes, natDigitsCore, h]
  rw [h1, natDigitsCore_append (n / 10) n [0x30 + n % 10]
    (Nat.div_lt_self (by omega) (by omega))]

theorem digitsVal_append_singleton (xs : Str) (d : Nat) :
    digitsVal (xs ++ [d]) = digitsVal xs * 10 + (d - 0x30) := by
  simp [digitsVal, List.foldl_append]

theorem digitsVal_natBytes (n : Nat) : digitsVal (natBytes n) = n := by
  induction n using Nat.strong_induction_on with
  | _ n ih =>
    by_cases h : n < 10
    · rw [natBytes_small n h]; simp [digitsVal]
    · rw [natBytes_step n h, digitsVal_append_singleton,
        ih (n / 10) (Nat.div_lt_self (by omega) (by omega))]
      omega

theorem natBytes_all_digits (n : Nat) : (natBytes n).all isDigitB = true := by
  induction n using Nat.strong_induction_on with
  | _ n ih =>
    by_cases h : n < 10
    · rw [natBytes_small n h]; simp [isDigitB]; omega
    · rw [natBytes_step n h]
      simp [List.all_append, ih (n / 10) (Nat.div_lt_self (by omega) (by omega)), isDigitB]
      omega

theorem natBytes_length_le (n : Nat) : ∀ k, n < 10 ^ k → 1 ≤ k →
    (natBytes n).length ≤ k := by
  induction n using Nat.strong_induction_on with
  | _ n ih =>
    intro k h1 h2
    by_cases h : n < 10
    · rw [natBytes_small n h]; simpa using h2
    · have hk2 : 2 ≤ k := by
        by_contra hc
        have hk1 : k = 1 := by omega
        rw [hk1] at h1
        simp at h1
        omega
      have hM : 10 ^ (k - 1) * 10 = 10 ^ k := by
        rw [← pow_succ]
        congr 1
        omega
      have hdivlt : n / 10 < 10 ^ (k - 1) := by omega
      have := ih (n / 10) (Nat.div_lt_self (by omega) (by omega)) (k - 1) hdivlt (by omega)
      rw [natBytes_step n h]
      simp only [List.length_append, List.length_cons, List.length_nil]
      omega

theorem natBytes_ne_nil (n : Nat) : natBytes n ≠ [] := by
  by_cases h : n < 10
  · rw [natBytes_small n h]; simp
  · rw [natBytes_step n h]; simp

theorem digitsVal_zeros_append (k : Nat) (ds : Str) :
    digitsVal (List.replicate k 0x30 ++ ds) = digitsVal ds := by
  induction k with
  | zero => simp
  | succ k ih => simpa [digitsVal, List.replicate_succ] using ih

theorem fmtPad_length (w n : Nat) (h1 : n < 10 ^ w) (h2 : 1 ≤ w) :
    (fmtPad w n).length = w := by
  have hlen := natBytes_length_le n w h1 h2
  simp [fmtPad]
  omega

theorem fmtPad_all_digits (w n : Nat) : (fmtPad w n).all isDigitB = true := by
  simp [fmtPad, List.all_append, natBytes_all_digits n, isDigitB]

theorem fmtPad_val (w n : Nat) : digitsVal (fmtPad w n) = n := by
  rw [fmtPad, digitsVal_zeros_append, digitsVal_natBytes]

theorem digitsValAux_lt (s : Str) : s.all isDigitB = true → ∀ a : Nat,
    s.foldl (fun x b => x * 10 + (b - 0x30)) a < (a + 1) * 10 ^ s.length := by
  induction s with
  | nil => intro _ a; simp
  | cons b bs ih =>
    intro h a
    simp only [List.all_cons, Bool.and_eq_true] at h
    obtain ⟨hb, hrest⟩ := h
    have hb9 : b - 0x30 ≤ 9 := by
      simp [isDigitB] at hb
      omega
    have ih2 := ih hrest (a * 10 + (b - 0x30))
    have hle : (a * 10 + (b - 0x30) + 1) * 10 ^ bs.length ≤ (a + 1) * 10 ^ (bs.length + 1) := by
      have hstep : a * 10 + (b - 0x30) + 1 ≤ (a + 1) * 10 := by omega
      calc (a * 10 + (b - 0x30) + 1) * 10 ^ bs.length
          ≤ ((a + 1) * 10) * 10 ^ bs.length := Nat.mul_le_mul_right _ hstep
        _ = (a + 1) * 10 ^ (bs.length + 1) := by rw [pow_succ]; ring
    simp only [List.foldl_cons, List.length_cons]
    exact lt_of_lt_of_le ih2 hle

theorem digitsVal_lt_pow (s : Str) (h : s.all isDigitB = true) :
    digitsVal s < 10 ^ s.length := by
  have := digitsValAux_lt s h 0
  simpa [digitsVal] using this

theorem parseUIntCore_digits (bound : Nat) (s : Str) (h1 : s ≠ [])
    (h2 : s.all isDigitB = true) (h3 : digitsVal s < bound) :
    parseUIntCore bound s = some (digitsVal s) := by
  match s, h1 with
  | b :: bs, _ =>
    have hb : isDigitB b = true := by
      simp only [List.all_cons, Bool.and_eq_true] at h2
      exact h2.1
    have hb43 : b ≠ 0x2B := by
      simp [isDigitB] at hb
      omega
    simp only [parseUIntCore, hb43, if_false, List.isEmpty_cons, Bool.false_eq_true, h2,
      if_true, h3]

theorem parseU32_digits (s : Str) (h1 : s ≠ []) (h2 : s.all isDigitB = true)
    (h3 : s.length ≤ 9) : parseU32 s = some (digitsVal s) := by
  have hval : digitsVal s < 10 ^ s.length := digitsVal_lt_pow s h2
  have hpow : (10 : Nat) ^ s.length ≤ 10 ^ 9 := Nat.pow_le_pow_right (by omega) h3
  exact parseUIntCore_digits (2 ^ 32) s h1 h2 (by norm_num at hpow ⊢; omega)

/-- Claim C6: for every packet type expressible as 4 decimal digits and
every body shorter than a million bytes, write_packet produces exactly a
14-byte header, namely the two control bytes 0x1B 0x09, the 4-digit
zero-padded decimal type, the 6-digit zero-padded decimal body length
and the literal 00, followed by the body verbatim; write_packet 2 on
body X gives the exact 15 bytes of the claim. -/
theorem write_packet_spec (t : Nat) (body : Str) (ht : t < 10 ^ 4) (hb : body.length < 10 ^ 6) :
    ∃ a b, write_packet t body = [0x1B, 0x09] ++ a ++ b ++ [0x30, 0x30] ++ body ∧
      a.length = 4 ∧ a.all isDigitB = true ∧ digitsVal a = t ∧
      b.length = 6 ∧ b.all isDigitB = true ∧ digitsVal b = body.length ∧
      (write_packet t body).length = 14 + body.length := by
  refine ⟨fmtPad 4 t, fmtPad 6 body.length, ?_, fmtPad_length 4 t ht (by omega),
    fmtPad_all_digits 4 t, fmtPad_val 4 t, fmtPad_length 6 body.length hb (by omega),
    fmtPad_all_digits 6 body.length, fmtPad_val 6 body.length, ?_⟩
  · have h2 : fmtPad 2 0 = [0x30, 0x30] := by decide
    rw [write_packet, h2]
  · simp only [write_packet, List.length_append, fmtPad_length 4 t ht (by omega),
      fmtPad_length 6 body.length hb (by omega)]
    have h2 : (fmtPad 2 0).length = 2 := by decide
    simp [h2]

/-- Witness for write_packet_spec, at the concrete input of the claim. -/
theorem write_packet_spec_witness :
    (∃ a b, write_packet 2 (strBytes "X") = [0x1B, 0x09] ++ a ++ b ++ [0x30, 0x30] ++ strBytes "X" ∧
      a.length = 4 ∧ a.all isDigitB = true ∧ digitsVal a = 2 ∧
      b.length = 6 ∧ b.all isDigitB = true ∧ digitsVal b = (strBytes "X").length ∧
      (write_packet 2 (strBytes "X")).length = 14 + (strBytes "X").length) ∧
    write_packet 0x02 (strBytes "X") = strBytes "\x1B\x09000200000100X" :=
  ⟨write_packet_spec 2 (strBytes "X") (by decide) (by decide), by decide⟩

/-- Claim C7: parse_packet rejects every input shorter than the 14-byte
header with the packet too short error, and being a total function it
cannot panic; on every input of at least 14 bytes whose bytes two to
five are decimal digits, it returns the type those digits denote
together with all bytes past the header. No hypothesis on the declared
length field at bytes six to eleven is needed: it is never validated. -/
theorem parse_packet_spec :
    (∀ p : Str, p.length < 14 → parse_packet p = .error (strBytes "packet too short")) ∧
    (∀ p : Str, 14 ≤ p.length → ((p.drop 2).take 4).all isDigitB = true →
      parse_packet p = .ok (digitsVal ((p.drop 2).take 4), p.drop 14)) := by
  constructor
  · intro p h
    simp [parse_packet, HEADER_LEN, h]
  · intro p hlen hdig
    have hslice_len : ((p.drop 2).take 4).length = 4 := by
      simp only [List.length_take, List.length_drop]
      omega
    have hne : (p.drop 2).take 4 ≠ [] := by
      intro hc
      rw [hc] at hslice_len
      exact absurd hslice_len (by simp)
    have hp32 := parseU32_digits ((p.drop 2).take 4) hne hdig (by omega)
    simp [parse_packet, HEADER_LEN, Nat.not_lt.mpr hlen, hp32]

/-- Witness for parse_packet_spec: a short input fails, and a 18-byte
input with type digits 0007 and an inconsistent declared length 000000
is still accepted, its body being all bytes past the header. -/
theorem parse_packet_spec_witness :
    parse_packet (strBytes "\x1B\x09") = .error (strBytes "packet too short") ∧
    parse_packet (strBytes "\x1B\x090007000000XXBODY") =
      .ok (digitsVal (((strBytes "\x1B\x090007000000XXBODY").drop 2).take 4),
        (strBytes "\x1B\x090007000000XXBODY").drop 14) ∧
    digitsVal (((strBytes "\x1B\x090007000000XXBODY").drop 2).take 4) = 7 ∧
    (strBytes "\x1B\x090007000000XXBODY").drop 14 = strBytes "BODY" :=
  ⟨parse_packet_spec.1 _ (by decide), parse_packet_spec.2 _ (by decide) (by decide),
    by decide, by decide⟩

/-- Claim C3, counterexample: on the body of the claim the sender is the
field at split index 6, the text rest, not the text name at index 5,
because the second nth call of the source advances one position further
than the claim assumes. -/
theorem handle_chatmesg_counterexample :
    handle_chatmesg (strBytes "_\x0Cmsg\x0Cx\x0Cx\x0Cx\x0Cname\x0Crest") =
      .ok (Message.mk (strBytes "rest") (some (strBytes "msg")) none) ∧
    handle_chatmesg (strBytes "_\x0Cmsg\x0Cx\x0Cx\x0Cx\x0Cname\x0Crest") ≠
      .ok (Message.mk (strBytes "name") (some (strBytes "msg")) none) := by decide

/-- Claim C3 as amended: the message text sits at split index 1 and the
sender name 5 further fields past it, at split index 6; when both are
present the result is that Message with no donation, and a body with
fewer than 7 fields fails with the invalid chatmesg packet error. -/
theorem handle_chatmesg_spec (body : Str) :
    (∀ msg name, (splitByte 0x0C body)[1]? = some msg →
        (splitByte 0x0C body)[6]? = some name →
        handle_chatmesg body = .ok (Message.mk name (some msg) none)) ∧
    ((splitByte 0x0C body).length < 7 →
        handle_chatmesg body = .error (strBytes "invalid chatmesg packet")) := by
  constructor
  · intro msg name h1 h6
    simp [handle_chatmesg, h1, h6]
  · intro hlen
    have h6 : (splitByte 0x0C body)[6]? = none := by
      rw [List.getElem?_eq_none_iff]
      omega
    cases h1 : (splitByte 0x0C body)[1]? with
    | none => simp [handle_chatmesg, h1]
    | some msg => simp [handle_chatmesg, h1, h6]

/-- Witness for handle_chatmesg_spec, at the body of the claim and at a
body missing the name field. -/
theorem handle_chatmesg_spec_witness :
    handle_chatmesg (strBytes "_\x0Cmsg\x0Cx\x0Cx\x0Cx\x0Cname\x0Crest") =
      .ok (Message.mk (strBytes "rest") (some (strBytes "msg")) none) ∧
    handle_chatmesg (strBytes "_\x0Cmsg\x0Cx") =
      .error (strBytes "invalid chatmesg packet") :=
  ⟨(handle_chatmesg_spec _).1 _ _ (by decide) (by decide),
    (handle_chatmesg_spec _).2 (by decide)⟩

/-- Claim C4, counterexample: on the body of the claim the amount is
read from split index 4, the underscore, not from index 3 where the 77
sits, so the call fails with the parse error instead of succeeding. -/
theorem handle_sendballoon_counterexample :
    handle_sendballoon (strBytes "_\x0C_\x0Cuser\x0C77\x0C_") =
      .error (strBytes "failed to parse amount") ∧
    handle_sendballoon (strBytes "_\x0C_\x0Cuser\x0C77\x0C_") ≠
      .ok (Message.mk (strBytes "user") none (some 77)) := by decide

/-- Claim C4 as amended: the sender sits at split index 2 and the amount
2 further fields past it, at split index 4; with both present and the
amount numeric the result is that pure-donation Message; a body with
fewer than 5 fields fails with the invalid sendballoon packet error and
a non-numeric amount field fails with the parse error, never a panic
since the function is total. -/
theorem handle_sendballoon_spec (body : Str) :
    (∀ user amount v, (splitByte 0x0C body)[2]? = some user →
        (splitByte 0x0C body)[4]? = some amount → parseU64 amount = some v →
        handle_sendballoon body = .ok (Message.mk user none (some v))) ∧
    ((splitByte 0x0C body).length < 5 →
        handle_sendballoon body = .error (strBytes "invalid sendballoon packet")) ∧
    (∀ amount, (splitByte 0x0C body)[4]? = some amount → parseU64 amount = none →
        handle_sendballoon body = .error (strBytes "failed to parse amount")) := by
  refine ⟨?_, ?_, ?_⟩
  · intro user amount v h2 h4 hv
    simp [handle_sendballoon, h2, h4, hv]
  · intro hlen
    have h4 : (splitByte 0x0C body)[4]? = none := by
      rw [List.getElem?_eq_none_iff]
      omega
    cases h2 : (splitByte 0x0C body)[2]? with
    | none => simp [handle_sendballoon, h2]
    | some u => simp [handle_sendballoon, h2, h4]
  · intro amount h4 hv
    have hlen5 : 4 < (splitByte 0x0C body).length := by
      by_contra hc
      rw [List.getElem?_eq_none (by omega)] at h4
      exact Option.noConfusion h4
    obtain ⟨u, h2⟩ : ∃ u, (splitByte 0x0C body)[2]? = some u := by
      cases hx : (splitByte 0x0C body)[2]? with
      | none =>
        rw [List.getElem?_eq_none_iff] at hx
        omega
      | some u => exact ⟨u, rfl⟩
    simp [handle_sendballoon, h2, h4, hv]

/-- Claim C8: every inbound frame of packet type 0x07 yields no Message
and flips the liveness flag to false; once the flag is false the
keepalive task exits at its next check, modelled by its next tick event,
and from then on the stream emits nothing, whatever events follow. -/
theorem soop_statchange_spec :
    (∀ (text : Str) (alive : Bool) (body : Str), parse_packet text = .ok (0x07, body) →
        handle_message text alive = (false, .error (strBytes "continue"))) ∧
    (∀ (text : Str) (alive : Bool) (body : Str) (rest : List SoopEv),
        parse_packet text = .ok (0x07, body) →
        runSoop alive (SoopEv.frame text :: rest) = runSoop false rest) ∧
    (∀ (sendOk : Bool) (rest : List SoopEv),
        runSoop false (SoopEv.tick sendOk :: rest) = []) := by
  have h1 : ∀ (text : Str) (alive : Bool) (body : Str), parse_packet text = .ok (0x07, body) →
      handle_message text alive = (false, .error (strBytes "continue")) := by
    intro text alive body h
    simp [handle_message, h, handle_setbjstat]
  refine ⟨h1, ?_, ?_⟩
  · intro text alive body rest h
    simp [runSoop, h1 text alive body h]
  · intro sendOk rest
    simp [runSoop]

/-- Witness for soop_statchange_spec at the status-change frame written
by write_packet for type 0x07 with an empty body. -/
theorem soop_statchange_spec_witness :
    handle_message (write_packet 0x07 []) true = (false, .error (strBytes "continue")) ∧
    runSoop true [SoopEv.frame (write_packet 0x07 []), SoopEv.tick true] = [] := by
  constructor
  · exact soop_statchange_spec.1 _ true [] (by decide)
  · rw [soop_statchange_spec.2.1 _ true [] _ (by decide), soop_statchange_spec.2.2]

/-- Claim C9: every Message produced by the Soop handlers has exactly
one of content and donated present: handle_chatmesg always returns some
content with no donation, handle_sendballoon no content with some
donation, and every Message that handle_message lets through comes from
one of the two. -/
theorem soop_message_shape_spec :
    (∀ (body : Str) (m : Message), handle_chatmesg body = .ok m →
        (∃ c, m.content = some c) ∧ m.donated = none) ∧
    (∀ (body : Str) (m : Message), handle_sendballoon body = .ok m →
        m.content = none ∧ ∃ d, m.donated = some d) ∧
    (∀ (text : Str) (alive a2 : Bool) (m : Message), handle_message text alive = (a2, .ok m) →
        ((∃ c, m.content = some c) ∧ m.donated = none) ∨
        (m.content = none ∧ ∃ d, m.donated = some d)) := by
  have hchat : ∀ (body : Str) (m : Message), handle_chatmesg body = .ok m →
      (∃ c, m.content = some c) ∧ m.donated = none := by
    intro body m h
    simp only [handle_chatmesg] at h
    split at h
    · exact Except.noConfusion h
    · split at h
      · exact Except.noConfusion h
      · rw [Except.ok.injEq] at h
        subst h
        exact ⟨⟨_, rfl⟩, rfl⟩
  have hballoon : ∀ (body : Str) (m : Message), handle_sendballoon body = .ok m →
      m.content = none ∧ ∃ d, m.donated = some d := by
    intro body m h
    simp only [handle_sendballoon] at h
    split at h
    · exact Except.noConfusion h
    · split at h
      · exact Except.noConfusion h
      · split at h
        · exact Except.noConfusion h
        · rw [Except.ok.injEq] at h
          subst h
          exact ⟨rfl, _, rfl⟩
  refine ⟨hchat, hballoon, ?_⟩
  intro text alive a2 m h
  unfold handle_message at h
  split at h
  · rw [Prod.mk.injEq] at h
    exact Except.noConfusion h.2
  · split at h
    · rw [Prod.mk.injEq] at h
      exact Or.inl (hchat _ m h.2)
    · split at h
      · rw [handle_setbjstat, Prod.mk.injEq] at h
        exact Except.noConfusion h.2
      · split at h
        · rw [Prod.mk.injEq] at h
          exact Or.inr (hballoon _ m h.2)
        · rw [Prod.mk.injEq] at h
          exact Except.noConfusion h.2

/-- Witness for soop_message_shape_spec at one chat and one donation
body. -/
theorem soop_message_shape_spec_witness :
    ((∃ c, (Message.mk (strBytes "rest") (some (strBytes "msg")) none).content = some c) ∧
      (Message.mk (strBytes "rest") (some (strBytes "msg")) none).donated = none) ∧
    ((Message.mk (strBytes "user") none (some 77)).content = none ∧
      ∃ d, (Message.mk (strBytes "user") none (some 77)).donated = some d) :=
  ⟨soop_message_shape_spec.1 (strBytes "_\x0Cmsg\x0Cx\x0Cx\x0Cx\x0Cname\x0Crest") _ (by decide),
    soop_message_shape_spec.2.1 (strBytes "_\x0C_\x0Cuser\x0C_\x0C77") _ (by decide)⟩

/-- Claim C5: every bootstrap envelope whose code differs from 200 fails
with an error text containing the decimal code and, when present, the
message, and never yields the content, so no default is substituted. -/
theorem chzzk_api_error_spec (T : Type) (r : ChzzkResponse T) (h : r.code ≠ 200) :
    ∃ e, chzzkCheckCode r = .error e ∧ containsSeg (intBytes r.code) e ∧
      (∀ m, r.message = some m → containsSeg m e) ∧ (∀ t, chzzkCheckCode r ≠ .ok t) := by
  cases hm : r.message with
  | none =>
    refine ⟨strBytes "chzzk api error: " ++ intBytes r.code, ?_, ?_, ?_, ?_⟩
    · simp [chzzkCheckCode, h, hm]
    · exact ⟨strBytes "chzzk api error: ", [], by simp⟩
    · intro m hm2
      exact Option.noConfusion hm2
    · intro t hc
      simp [chzzkCheckCode, h, hm] at hc
  | some m =>
    refine ⟨strBytes "chzzk api error: " ++ intBytes r.code ++ strBytes " (" ++ m ++
      strBytes ")", ?_, ?_, ?_, ?_⟩
    · simp [chzzkCheckCode, h, hm]
    · exact ⟨strBytes "chzzk api error: ", strBytes " (" ++ m ++ strBytes ")", by simp⟩
    · intro m2 hm2
      rw [Option.some.injEq] at hm2
      subst hm2
      exact ⟨strBytes "chzzk api error: " ++ intBytes r.code ++ strBytes " (", strBytes ")",
        by simp⟩
    · intro t hc
      simp [chzzkCheckCode, h, hm] at hc

/-- Witness for chzzk_api_error_spec at code 403 with message forbidden;
the decimal bytes of 403 are the text 403, so the error text contains
both 403 and forbidden. -/
theorem chzzk_api_error_spec_witness :
    intBytes 403 = strBytes "403" ∧
    (∃ e, chzzkCheckCode (ChzzkResponse.mk 403 (some (strBytes "forbidden")) ()) = .error e ∧
      containsSeg (intBytes (ChzzkResponse.mk 403 (some (strBytes "forbidden")) ()).code) e ∧
      (∀ m, (ChzzkResponse.mk 403 (some (strBytes "forbidden")) ()).message = some m →
        containsSeg m e) ∧
      (∀ t, chzzkCheckCode (ChzzkResponse.mk 403 (some (strBytes "forbidden")) ()) ≠ .ok t)) :=
  ⟨by decide,
    chzzk_api_error_spec Unit (ChzzkResponse.mk 403 (some (strBytes "forbidden")) ()) (by decide)⟩

/-- Claim C2, counterexample: the serialized Auth envelope for channel
abc and token tok embeds the body under bdy as a raw JSON object, since
serde_json splices a RawValue verbatim, and not as the flat JSON string
value the claim predicts. -/
theorem chzzk_auth_encode_counterexample :
    authSendText (strBytes "abc") (strBytes "tok") =
      strBytes "\x7b\"svcid\":\"game\",\"cid\":\"abc\",\"cmd\":100,\"ver\":3,\"bdy\":\x7b\"accTkn\":\"tok\",\"auth\":\"READ\"\x7d\x7d" ∧
    authSendText (strBytes "abc") (strBytes "tok") ≠
      strBytes "\x7b\"svcid\":\"game\",\"cid\":\"abc\",\"cmd\":100,\"ver\":3,\"bdy\":\"\x7b\\\"accTkn\\\":\\\"tok\\\",\\\"auth\\\":\\\"READ\\\"\x7d\"\x7d" := by
  exact ⟨by decide, by decide⟩

/-- Claim C2 as amended: for every channel id and token the Auth
envelope carries svcid game, the channel id under cid, the digits 100
under cmd and 3 under ver, and its bdy field holds the body serialized
once to its own JSON text and spliced in verbatim as a JSON object
value, whose first byte is an opening brace and not a quote. -/
theorem chzzk_auth_encode_spec (channel_id token : Str) :
    authSendText channel_id token =
      strBytes "\x7b\"svcid\":\"game\",\"cid\":" ++ jsonQuote channel_id ++ strBytes ",\"cmd\":" ++
        strBytes "100" ++ strBytes ",\"ver\":" ++ strBytes "3" ++ strBytes ",\"bdy\":" ++
        (Auth.new token).serialize ++ strBytes "\x7d" ∧
    ((Auth.new token).serialize).head? = some 0x7B ∧
    ((Auth.new token).serialize).head? ≠ some 0x22 := by
  have h100 : intBytes Auth.command = strBytes "100" := by decide
  have h3 : intBytes Auth.version = strBytes "3" := by decide
  have hA : strBytes "\x7b\"accTkn\":" = 0x7B :: strBytes "\"accTkn\":" := by decide
  refine ⟨?_, ?_, ?_⟩
  · simp only [authSendText, sendCommandText, h100, h3]
  · simp [Auth.serialize, hA]
  · simp [Auth.serialize, hA]

/-- Claim C1 evaluated on the code: the chat event of the claim, whose
extras text carries the key payAmount, decodes with donated none,
because the Extras struct of the source declares the un-renamed field
pay_amount; the same event under the key pay_amount decodes to some 500;
and a frame holding an event with a malformed profile is dropped whole
while the stream keeps processing the following frames. -/
theorem chzzk_payamount_divergence :
    decodeChatMessage (Json.jobj
      [(strBytes "profile", Json.jstr (strBytes "\x7b\"nickname\":\"Alice\"\x7d")),
       (strBytes "msg", Json.jstr (strBytes "hi")),
       (strBytes "extras", Json.jstr (strBytes "\x7b\"payAmount\":500\x7d"))]) =
      .ok (ChatMessage.mk (strBytes "Alice") (strBytes "hi") none) ∧
    decodeChatMessage (Json.jobj
      [(strBytes "profile", Json.jstr (strBytes "\x7b\"nickname\":\"Alice\"\x7d")),
       (strBytes "msg", Json.jstr (strBytes "hi")),
       (strBytes "extras", Json.jstr (strBytes "\x7b\"pay_amount\":500\x7d"))]) =
      .ok (ChatMessage.mk (strBytes "Alice") (strBytes "hi") (some 500)) ∧
    chzzkProcessFrames
      [Except.ok (strBytes "\x7b\"bdy\":[\x7b\"profile\":\"bad\",\"msg\":\"hi\",\"extras\":\"\x7b\x7d\"\x7d]\x7d"),
       Except.ok (strBytes "\x7b\"bdy\":[\x7b\"profile\":\"\x7b\\\"nickname\\\":\\\"A\\\"\x7d\",\"msg\":\"hi\",\"extras\":\"\x7b\x7d\"\x7d]\x7d")] =
      [Message.mk (strBytes "A") (some (strBytes "hi")) none] := by
  exact ⟨by decide, by decide, by decide⟩

/-- Claim C10: every Message the Chzzk stream emits has some content: a
chat event only decodes when its msg member is a string, and the adapter
wraps that text in some when building the crate Message. -/
theorem chzzk_content_always_some (frames : List (Except Unit Str)) (m : Message)
    (h : m ∈ chzzkProcessFrames frames) : ∃ c, m.content = some c := by
  induction frames with
  | nil => exact absurd h (by simp [chzzkProcessFrames])
  | cons f rest ih =>
    rw [chzzkProcessFrames] at h
    rcases List.mem_append.mp h with h1 | h2
    · cases f with
      | error e => simp [chzzkProcessFrame] at h1
      | ok text =>
        cases hr : recvChatCommand text with
        | error e => simp [chzzkProcessFrame, hr] at h1
        | ok msgs =>
          simp only [chzzkProcessFrame, hr, List.mem_map] at h1
          obtain ⟨cm, _, hm⟩ := h1
          exact ⟨cm.content, by rw [← hm]⟩
    · exact ih h2

/-- Witness for chzzk_content_always_some at a one-frame stream that
emits one Message. -/
theorem chzzk_content_always_some_witness :
    ∃ c, (Message.mk (strBytes "A") (some (strBytes "hi")) none).content = some c :=
  chzzk_content_always_some
    [Except.ok (strBytes "\x7b\"bdy\":[\x7b\"profile\":\"\x7b\\\"nickname\\\":\\\"A\\\"\x7d\",\"msg\":\"hi\",\"extras\":\"\x7b\x7d\"\x7d]\x7d")]
    (Message.mk (strBytes "A") (some (strBytes "hi")) none) (by decide)

/-- Witness for handle_sendballoon_spec: a body with the amount at split
index 4 succeeds, a short body and a non-numeric amount fail. -/
theorem handle_sendballoon_spec_witness :
    handle_sendballoon (strBytes "_\x0C_\x0Cuser\x0C_\x0C77") =
      .ok (Message.mk (strBytes "user") none (some 77)) ∧
    handle_sendballoon (strBytes "_\x0C_\x0Cuser") =
      .error (strBytes "invalid sendballoon packet") ∧
    handle_sendballoon (strBytes "_\x0C_\x0Cuser\x0C77\x0Cxx") =
      .error (strBytes "failed to parse amount") :=
  ⟨(handle_sendballoon_spec _).1 (strBytes "user") (strBytes "77") 77
      (by decide) (by decide) (by decide),
    (handle_sendballoon_spec _).2.1 (by decide),
    (handle_sendballoon_spec _).2.2 (strBytes "xx") (by decide) (by decide)⟩
